import Mathlib

/-!
Shallow embedding of the finql storage layer (Czichy/finql).

Sources embedded here:
* src/finql-postgres/src/transaction_handler.rs  (RawTransaction codec)
* src/finql-sqlite/src/quote_handler.rs          (ticker, quote, rounding handlers)
* src/src/sqlite_handler/asset_handler.rs        (asset handler)
* src/finql-data/src/quote_handler.rs            (insert_if_new_ticker default method)

Modelling conventions:
* Rust usize is modelled as Nat; i32/i64 casts are modelled with explicit
  two-complement wrapping where the source performs an `as` cast.
* f64 payloads (prices, amounts, positions, factors, volumes) are never
  computed with by the embedded code, only copied verbatim between rows and
  records, so they are modelled by Int, a stand-in with decidable equality.
* DateTime values are stored by the source as RFC3339 strings and compared
  lexicographically by SQL; for instants produced by to_rfc3339 that string
  order agrees with the time order, so times are modelled as Nat.
* SQL result sets are modelled as Lean lists in table order; query_row
  returns the first row of the result set.
-/

/-- Error type of the finql-data crate as used by the embedded sources.
The first three constructors appear in src/; InvalidCurrency is listed by
the specification among the error kinds of the data layer. -/
inductive DataError where
  | NotFound (msg : String)
  | InsertFailed (msg : String)
  | InvalidTransaction (msg : String)
  | InvalidCurrency (msg : String)
deriving DecidableEq, Repr

/-- True exactly on a NotFound error. -/
def DataError.isNotFound : DataError → Bool
  | .NotFound _ => true
  | _ => false

/-- True exactly on an InsertFailed error. -/
def DataError.isInsertFailed : DataError → Bool
  | .InsertFailed _ => true
  | _ => false

/-- True exactly on an InvalidTransaction error. -/
def DataError.isInvalidTransaction : DataError → Bool
  | .InvalidTransaction _ => true
  | _ => false

/-- True exactly on an InvalidCurrency error. -/
def DataError.isInvalidCurrency : DataError → Bool
  | .InvalidCurrency _ => true
  | _ => false

/-- A result is an InvalidTransaction failure. -/
def errIsInvalidTransaction {α : Type} : Except DataError α → Bool
  | .error e => e.isInvalidTransaction
  | .ok _ => false

/-- A result is an InsertFailed failure. -/
def errIsInsertFailed {α : Type} : Except DataError α → Bool
  | .error e => e.isInsertFailed
  | .ok _ => false

/-- A result is an InvalidCurrency failure. -/
def errIsInvalidCurrency {α : Type} : Except DataError α → Bool
  | .error e => e.isInvalidCurrency
  | .ok _ => false

/-- A result is a NotFound failure. -/
def errIsNotFound {α : Type} : Except DataError α → Bool
  | .error e => e.isNotFound
  | .ok _ => false

/-- A result is a success. -/
def resIsOk {α : Type} : Except DataError α → Bool
  | .ok _ => true
  | .error _ => false

/-- Currency values are carried as their ISO code string; the Currency type
of finql-data serializes to that string via to_string and is re-read via
from_str. -/
abbrev Currency := String

/-- Modelled from the spec: currency-code parsing (Currency::from_str of
finql-data, whose source file is not part of src/) is external to the core;
per the specification a currency code either parses or yields a parse
failure. The model accepts exactly the three-letter alphabetic codes, the
shape every ISO 4217 code has, and parsing returns the code itself, so that
to_string and from_str round-trip on every parseable code. -/
def Currency.from_str (s : String) : Option Currency :=
  if s.length = 3 ∧ s.data.all Char.isAlpha then some s else none

/-- Two-complement wrap of a Nat (Rust usize, 64 bit) cast `as i32`. -/
def usizeToI32 (n : Nat) : Int :=
  if n % 2 ^ 32 < 2 ^ 31 then ((n % 2 ^ 32 : Nat) : Int)
  else ((n % 2 ^ 32 : Nat) : Int) - 2 ^ 32

/-- Two-complement reinterpretation of an i32 value cast `as usize` on a
64-bit platform: sign-extend to 64 bits and read as unsigned. -/
def i32ToUsize (x : Int) : Nat := (x % (2 ^ 64 : Int)).toNat

/-- Transaction variants, from finql-data transaction.rs as used by the
codec in src/finql-postgres/src/transaction_handler.rs. -/
inductive TransactionType where
  | Cash : TransactionType
  | Asset (asset_id : Nat) (position : Int) : TransactionType
  | Dividend (asset_id : Nat) : TransactionType
  | Interest (asset_id : Nat) : TransactionType
  | Tax (transaction_ref : Option Nat) : TransactionType
  | Fee (transaction_ref : Option Nat) : TransactionType
deriving DecidableEq, Repr

/-- A monetary amount in a currency (finql-data CashAmount). -/
structure CashAmount where
  amount : Int
  currency : Currency
deriving DecidableEq, Repr

/-- A dated cash amount (finql-data CashFlow); NaiveDate modelled as Nat. -/
structure CashFlow where
  amount : CashAmount
  date : Nat
deriving DecidableEq, Repr

/-- A ledger transaction (finql-data Transaction). -/
structure Transaction where
  id : Option Nat
  transaction_type : TransactionType
  cash_flow : CashFlow
  note : Option String
deriving DecidableEq, Repr

/-- The flat row representation of a transaction, struct RawTransaction of
src/finql-postgres/src/transaction_handler.rs. -/
structure RawTransaction where
  id : Option Int
  trans_type : String
  asset : Option Int
  cash_amount : Int
  cash_currency : String
  cash_date : Nat
  related_trans : Option Int
  position : Option Int
  note : Option String
deriving DecidableEq, Repr

/-- RawTransaction::from_transaction (lines 83-124 of
src/finql-postgres/src/transaction_handler.rs): build the base row from the
cash flow and note, then fill discriminant and variant fields. -/
def RawTransaction.from_transaction (t : Transaction) : RawTransaction :=
  let base : RawTransaction :=
    { id := t.id.map usizeToI32
      trans_type := ""
      asset := none
      cash_amount := t.cash_flow.amount.amount
      cash_currency := t.cash_flow.amount.currency
      cash_date := t.cash_flow.date
      related_trans := none
      position := none
      note := t.note }
  match t.transaction_type with
  | .Cash => { base with trans_type := "c" }
  | .Asset asset_id position =>
      { base with trans_type := "a", asset := some (usizeToI32 asset_id),
                  position := some position }
  | .Dividend asset_id =>
      { base with trans_type := "d", asset := some (usizeToI32 asset_id) }
  | .Interest asset_id =>
      { base with trans_type := "i", asset := some (usizeToI32 asset_id) }
  | .Tax transaction_ref =>
      { base with trans_type := "t",
                  related_trans := transaction_ref.map usizeToI32 }
  | .Fee transaction_ref =>
      { base with trans_type := "f",
                  related_trans := transaction_ref.map usizeToI32 }

/-- RawTransaction::to_transaction (lines 33-81 of
src/finql-postgres/src/transaction_handler.rs). The currency string is
parsed first, a parse failure being mapped to InsertFailed; then the
discriminant is dispatched, missing required fields and unknown tags
yielding InvalidTransaction. -/
def RawTransaction.to_transaction (r : RawTransaction) :
    Except DataError Transaction :=
  match Currency.from_str r.cash_currency with
  | none => .error (.InsertFailed "invalid currency")
  | some currency =>
    let id := r.id.map i32ToUsize
    let cash_flow : CashFlow :=
      { amount := { amount := r.cash_amount, currency := currency }
        date := r.cash_date }
    let note := r.note
    let transaction_type : Except DataError TransactionType :=
      if r.trans_type = "c" then .ok .Cash
      else if r.trans_type = "a" then
        match r.asset, r.position with
        | none, _ => .error (.InvalidTransaction "missing asset id")
        | some _, none => .error (.InvalidTransaction "missing position value")
        | some a, some p => .ok (.Asset (i32ToUsize a) p)
      else if r.trans_type = "d" then
        match r.asset with
        | none => .error (.InvalidTransaction "missing asset id")
        | some a => .ok (.Dividend (i32ToUsize a))
      else if r.trans_type = "i" then
        match r.asset with
        | none => .error (.InvalidTransaction "missing asset id")
        | some a => .ok (.Interest (i32ToUsize a))
      else if r.trans_type = "t" then
        .ok (.Tax (r.related_trans.map i32ToUsize))
      else if r.trans_type = "f" then
        .ok (.Fee (r.related_trans.map i32ToUsize))
      else .error (.InvalidTransaction r.trans_type)
    match transaction_type with
    | .error e => .error e
    | .ok tt => .ok { id := id, transaction_type := tt,
                      cash_flow := cash_flow, note := note }

/-- Row of the assets table: assets(id, name, wkn?, isin?, note?). -/
structure AssetRow where
  id : Nat
  name : String
  wkn : Option String
  isin : Option String
  note : Option String
deriving DecidableEq, Repr

/-- The Asset record of finql-data (id is assigned by the store). -/
structure Asset where
  id : Option Nat
  name : String
  wkn : Option String
  isin : Option String
  note : Option String
deriving DecidableEq, Repr

/-- Row of the ticker table:
ticker(id, name, asset_id, source, priority, currency, factor); the
currency column stores the to_string form of the ticker currency. -/
structure TickerRow where
  id : Nat
  name : String
  asset : Nat
  source : String
  priority : Int
  currency : String
  factor : Int
deriving DecidableEq, Repr

/-- The Ticker record of finql-data (id is assigned by the store). -/
structure Ticker where
  id : Option Nat
  name : String
  asset : Nat
  source : String
  priority : Int
  currency : Currency
  factor : Int
deriving DecidableEq, Repr

/-- Row of the quotes table: quotes(id, ticker_id, price, time, volume?). -/
structure QuoteRow where
  id : Nat
  ticker : Nat
  price : Int
  time : Nat
  volume : Option Int
deriving DecidableEq, Repr

/-- The Quote record of finql-data (id is assigned by the store). -/
structure Quote where
  id : Option Nat
  ticker : Nat
  price : Int
  time : Nat
  volume : Option Int
deriving DecidableEq, Repr

/-- The SQLite database state: the tables the embedded handlers touch, in
row order, plus the autoincrement counters for ids assigned on insert. -/
structure SqliteDB where
  assets : List AssetRow
  tickers : List TickerRow
  quotes : List QuoteRow
  rounding : List (String × Int)
deriving DecidableEq, Repr

/-- Next rowid the ticker table assigns (ids are assigned by the engine;
the model uses one more than the largest id present). -/
def SqliteDB.nextTickerId (db : SqliteDB) : Nat :=
  (db.tickers.map TickerRow.id).foldr max 0 + 1

/-- Next rowid the quotes table assigns. -/
def SqliteDB.nextQuoteId (db : SqliteDB) : Nat :=
  (db.quotes.map QuoteRow.id).foldr max 0 + 1

/-- get_asset_id (lines 29-45 of src/src/sqlite_handler/asset_handler.rs):
if the asset carries an isin, query by isin; else if it carries a wkn,
query by wkn; else query by name. query_row yields the first matching row
or an error, mapped to None. -/
def get_asset_id (db : SqliteDB) (asset : Asset) : Option Nat :=
  match asset.isin with
  | some isin => (db.assets.find? fun row => row.isin = some isin).map AssetRow.id
  | none =>
    match asset.wkn with
    | some wkn => (db.assets.find? fun row => row.wkn = some wkn).map AssetRow.id
    | none => (db.assets.find? fun row => row.name = asset.name).map AssetRow.id

/-- get_ticker_id (lines 74-85 of src/finql-sqlite/src/quote_handler.rs):
SELECT id FROM ticker WHERE name=?, first row or None. -/
def get_ticker_id (db : SqliteDB) (name : String) : Option Nat :=
  (db.tickers.find? fun row => row.name = name).map TickerRow.id

/-- insert_ticker (lines 45-72 of src/finql-sqlite/src/quote_handler.rs):
INSERT the ticker fields (the id being assigned by the engine), then
SELECT id FROM ticker WHERE name=? AND source=?, first row. -/
def insert_ticker (db : SqliteDB) (t : Ticker) :
    Except DataError (Nat × SqliteDB) :=
  let row : TickerRow :=
    { id := db.nextTickerId, name := t.name, asset := t.asset,
      source := t.source, priority := t.priority,
      currency := t.currency, factor := t.factor }
  let db2 : SqliteDB := { db with tickers := db.tickers ++ [row] }
  match db2.tickers.find? fun r => r.name = t.name ∧ r.source = t.source with
  | some r => .ok (r.id, db2)
  | none => .error (.NotFound "query returned no rows")

/-- insert_if_new_ticker (lines 15-20 of
src/finql-data/src/quote_handler.rs, a default trait method): return the
existing id for the name if any, otherwise insert. -/
def insert_if_new_ticker (db : SqliteDB) (t : Ticker) :
    Except DataError (Nat × SqliteDB) :=
  match get_ticker_id db t.name with
  | some id => .ok (id, db)
  | none => insert_ticker db t

/-- The join and filter of the get_last_quote_before query (lines 280-319
of src/finql-sqlite/src/quote_handler.rs): rows (q, t) with
a.name = asset_name, t.asset_id = a.id, t.id = q.ticker_id and
q.time <= cutoff, enumerated in table order. -/
def quoteJoinByName (db : SqliteDB) (asset_name : String) (cutoff : Nat) :
    List (QuoteRow × TickerRow) :=
  (db.quotes.map fun q =>
    (db.tickers.map fun t =>
      (db.assets.filterMap fun a =>
        if asset_name = a.name ∧ t.asset = a.id ∧ q.ticker = t.id ∧
           q.time ≤ cutoff
        then some (q, t) else none)).flatten).flatten

/-- The join and filter of the get_last_quote_before_by_id query (lines
320-359 of src/finql-sqlite/src/quote_handler.rs): rows (q, t) with
t.asset_id = asset_id, t.id = q.ticker_id and q.time <= cutoff. -/
def quoteJoinById (db : SqliteDB) (asset_id : Nat) (cutoff : Nat) :
    List (QuoteRow × TickerRow) :=
  (db.quotes.map fun q =>
    db.tickers.filterMap fun t =>
      if t.asset = asset_id ∧ q.ticker = t.id ∧ q.time ≤ cutoff
      then some (q, t) else none).flatten

/-- The sort key of ORDER BY q.time, t.priority DESC: a candidate beats the
current best when its time is strictly earlier, or equal with strictly
higher ticker priority. -/
def quoteOrderBeats (y best : QuoteRow × TickerRow) : Bool :=
  y.1.time < best.1.time ∨ (y.1.time = best.1.time ∧ y.2.priority > best.2.priority)

/-- The first row of the result set under ORDER BY q.time, t.priority DESC
LIMIT 1 (rows tied on both keys keep their enumeration order). -/
def selectFirstRow : List (QuoteRow × TickerRow) → Option (QuoteRow × TickerRow)
  | [] => none
  | x :: xs => some (xs.foldl (fun best y => if quoteOrderBeats y best then y else best) x)

/-- Shared tail of both quote queries: no row is a NotFound error; from a
row, re-parse the stored currency (a parse failure is mapped to NotFound)
and return the quote with its id set. -/
def lastQuoteFromRow (row : Option (QuoteRow × TickerRow)) :
    Except DataError (Quote × Currency) :=
  match row with
  | none => .error (.NotFound "query returned no rows")
  | some (q, t) =>
    match Currency.from_str t.currency with
    | none => .error (.NotFound "invalid currency")
    | some currency =>
      .ok ({ id := some q.id, ticker := q.ticker, price := q.price,
             time := q.time, volume := q.volume }, currency)

/-- get_last_quote_before (lines 280-319 of
src/finql-sqlite/src/quote_handler.rs): the quote/ticker/assets join
filtered to the asset name and q.time <= cutoff, ORDER BY q.time,
t.priority DESC LIMIT 1. -/
def get_last_quote_before (db : SqliteDB) (asset_name : String)
    (cutoff : Nat) : Except DataError (Quote × Currency) :=
  lastQuoteFromRow (selectFirstRow (quoteJoinByName db asset_name cutoff))

/-- get_last_quote_before_by_id (lines 320-359 of
src/finql-sqlite/src/quote_handler.rs): as get_last_quote_before but the
asset is given by id. -/
def get_last_quote_before_by_id (db : SqliteDB) (asset_id : Nat)
    (cutoff : Nat) : Except DataError (Quote × Currency) :=
  lastQuoteFromRow (selectFirstRow (quoteJoinById db asset_id cutoff))

/-- Insertion into a list sorted by ascending quote time (stable: equal
times keep earlier rows first). -/
def insertByTime (q : QuoteRow) : List QuoteRow → List QuoteRow
  | [] => [q]
  | x :: xs => if x.time ≤ q.time then x :: insertByTime q xs else q :: x :: xs

/-- Sorting by ascending quote time, the ORDER BY time ASC of
get_all_quotes_for_ticker. -/
def sortByTime : List QuoteRow → List QuoteRow
  | [] => []
  | x :: xs => insertByTime x (sortByTime xs)

/-- get_all_quotes_for_ticker (lines 360-390 of
src/finql-sqlite/src/quote_handler.rs): SELECT id, price, time, volume
FROM quotes WHERE ticker_id=? ORDER BY time ASC, each row read back as a
Quote with the queried ticker id. -/
def get_all_quotes_for_ticker (db : SqliteDB) (ticker_id : Nat) :
    List Quote :=
  (sortByTime (db.quotes.filter fun q => q.ticker = ticker_id)).map fun q =>
    { id := some q.id, ticker := ticker_id, price := q.price,
      time := q.time, volume := q.volume }

/-- update_quote (lines 392-413 of src/finql-sqlite/src/quote_handler.rs).
Fails with NotFound when the quote carries no id. The UPDATE statement
reads: SET ticker_id=?2, price=?2, time=?4, volume=?5 WHERE id=?1, with
parameters ?1=id, ?2=ticker, ?3=price, ?4=time, ?5=volume — so the price
column receives parameter 2, the ticker id, and the bound price parameter
?3 is never used. The model reproduces that binding verbatim. -/
def update_quote (db : SqliteDB) (q : Quote) : Except DataError SqliteDB :=
  match q.id with
  | none => .error (.NotFound "not yet stored to database")
  | some id =>
    .ok { db with
          quotes := db.quotes.map fun row =>
            if row.id = id then
              { row with ticker := q.ticker, price := (q.ticker : Int),
                         time := q.time, volume := q.volume }
            else row }

/-- get_rounding_digits (lines 421-437 of
src/finql-sqlite/src/quote_handler.rs): SELECT digits FROM rounding_digits
WHERE currency=?, first row; any failure of the lookup yields the default
2. The return type is Int: the operation is total and surfaces no error. -/
def get_rounding_digits (db : SqliteDB) (currency : Currency) : Int :=
  match db.rounding.find? fun row => row.1 = currency with
  | some row => row.2
  | none => 2

/-- Modelled from the spec: the schema of the rounding_digits table is not
part of src/; the specification describes the table as a mapping from
currency to digits, so the currency column is unique and an INSERT for an
already-present currency is rejected by the engine. -/
def roundingInsertRejected (db : SqliteDB) (currency : Currency) : Bool :=
  (db.rounding.find? fun row => row.1 = currency).isSome

/-- set_rounding_digits (lines 439-447 of
src/finql-sqlite/src/quote_handler.rs): INSERT INTO rounding_digits
(currency, digits) VALUES (?1, ?2), an engine rejection being mapped to
InsertFailed. -/
def set_rounding_digits (db : SqliteDB) (currency : Currency) (digits : Int) :
    Except DataError SqliteDB :=
  if roundingInsertRejected db currency then
    .error (.InsertFailed "UNIQUE constraint failed")
  else
    .ok { db with rounding := db.rounding ++ [(currency, digits)] }

deriving instance DecidableEq for Except

/-- An optional id fits in a 31-bit nonnegative range. -/
def optNatSmall : Option Nat → Bool
  | none => true
  | some n => decide (n < 2 ^ 31)

/-- All ids referenced by the variant fit in a 31-bit range. -/
def TransactionType.refsSmall : TransactionType → Bool
  | .Cash => true
  | .Asset a _ => decide (a < 2 ^ 31)
  | .Dividend a => decide (a < 2 ^ 31)
  | .Interest a => decide (a < 2 ^ 31)
  | .Tax r => optNatSmall r
  | .Fee r => optNatSmall r

/-- The id of the transaction and every id referenced by its variant fit in
a 31-bit range, the range the i32 columns can carry faithfully. -/
def Transaction.refsSmall (t : Transaction) : Bool :=
  optNatSmall t.id && t.transaction_type.refsSmall

/-- The discriminant is one of the known tags c, a, d, i, t, f. -/
def knownTag (s : String) : Bool :=
  s = "c" || s = "a" || s = "d" || s = "i" || s = "t" || s = "f"

/-- The row carries every field its discriminant requires: asset for tags
a, d and i, and position for tag a. -/
def RawTransaction.requiredPresent (r : RawTransaction) : Bool :=
  if r.trans_type = "a" then r.asset.isSome && r.position.isSome
  else if r.trans_type = "d" then r.asset.isSome
  else if r.trans_type = "i" then r.asset.isSome
  else true

theorem i32ToUsize_usizeToI32 (n : Nat) (h : n < 2 ^ 31) :
    i32ToUsize (usizeToI32 n) = n := by
  unfold usizeToI32 i32ToUsize
  have h32 : n % 2 ^ 32 = n := Nat.mod_eq_of_lt (by omega)
  rw [h32, if_pos h]
  omega

theorem optMap_cast_roundtrip (o : Option Nat) (h : optNatSmall o = true) :
    (o.map usizeToI32).map i32ToUsize = o := by
  cases o with
  | none => rfl
  | some n =>
    simp only [optNatSmall, decide_eq_true_eq] at h
    simp [i32ToUsize_usizeToI32 n h]

theorem optMap_comp_cast (o : Option Nat) (h : optNatSmall o = true) :
    Option.map (i32ToUsize ∘ usizeToI32) o = o := by
  cases o with
  | none => rfl
  | some n =>
    simp only [optNatSmall, decide_eq_true_eq] at h
    simp [Function.comp, i32ToUsize_usizeToI32 n h]

/-- A transaction whose id does not fit in 31 bits: the encode side casts
the usize id with `as i32` and the decode side casts back with `as usize`,
so this id does not survive the round trip. -/
def largeIdTransaction : Transaction :=
  { id := some (2 ^ 31)
    transaction_type := .Cash
    cash_flow := { amount := { amount := 1, currency := "USD" }, date := 0 }
    note := none }

/-- C2 counterexample: the round-trip law fails at a Cash transaction with
the concrete id 2 to the 31, although its currency round-trips through its
string form; decoding the encoded row succeeds but returns a different id. -/
theorem transaction_roundtrip_ctrex :
    Currency.from_str largeIdTransaction.cash_flow.amount.currency =
      some largeIdTransaction.cash_flow.amount.currency ∧
    RawTransaction.to_transaction
      (RawTransaction.from_transaction largeIdTransaction) ≠
      .ok largeIdTransaction := by
  constructor
  · decide
  · decide

/-- C2 (amended): for every Transaction whose currency round-trips through
its string form and whose id, asset id and transaction reference fit below
2 to the 31, encoding is total and decoding the encoded row returns the
original transaction. -/
theorem transaction_roundtrip (t : Transaction)
    (hcur : Currency.from_str t.cash_flow.amount.currency =
      some t.cash_flow.amount.currency)
    (hsmall : t.refsSmall = true) :
    RawTransaction.to_transaction (RawTransaction.from_transaction t) =
      .ok t := by
  obtain ⟨id, tt, ⟨⟨amount, currency⟩, date⟩, note⟩ := t
  simp only [Transaction.refsSmall, Bool.and_eq_true] at hsmall
  obtain ⟨hid, htt⟩ := hsmall
  cases tt <;>
    simp_all [RawTransaction.from_transaction, RawTransaction.to_transaction,
      TransactionType.refsSmall, optMap_comp_cast, i32ToUsize_usizeToI32]

/-- A representative asset transaction with every optional field set. -/
def sampleAssetTransaction : Transaction :=
  { id := some 7
    transaction_type := .Asset 3 5
    cash_flow := { amount := { amount := 10, currency := "EUR" }, date := 737 }
    note := some "buy" }

/-- C2 witness: the round trip holds at a concrete asset transaction. -/
theorem transaction_roundtrip_witness :
    (Currency.from_str sampleAssetTransaction.cash_flow.amount.currency =
      some sampleAssetTransaction.cash_flow.amount.currency) ∧
    sampleAssetTransaction.refsSmall = true ∧
    RawTransaction.to_transaction
      (RawTransaction.from_transaction sampleAssetTransaction) =
      .ok sampleAssetTransaction :=
  ⟨by decide, by decide,
    transaction_roundtrip sampleAssetTransaction (by decide) (by decide)⟩

/-- A row with an unknown discriminant and an unparseable currency code. -/
def rawUnknownTagBadCurrency : RawTransaction :=
  { id := none, trans_type := "x", asset := none, cash_amount := 1,
    cash_currency := "", cash_date := 0, related_trans := none,
    position := none, note := none }

/-- C3 counterexample: a row whose discriminant is none of the known tags
does not always fail with an InvalidTransaction-class error: when the
currency string of the row is also unparseable, the currency is parsed
first and decoding fails with InsertFailed instead. -/
theorem to_transaction_error_classes_ctrex :
    knownTag rawUnknownTagBadCurrency.trans_type = false ∧
    errIsInvalidTransaction
      (RawTransaction.to_transaction rawUnknownTagBadCurrency) = false ∧
    errIsInsertFailed
      (RawTransaction.to_transaction rawUnknownTagBadCurrency) = true := by
  refine ⟨by decide, by decide, by decide⟩

/-- C3 (amended): provided the cash_currency string of the row parses as a
currency, decoding a row with an unknown discriminant fails with an
InvalidTransaction-class error; so does decoding a row missing the asset
reference for tags a, d or i, or missing the position for tag a; and
decoding succeeds on every row of a known tag carrying its required
fields. -/
theorem to_transaction_error_classes (r : RawTransaction)
    (hcur : (Currency.from_str r.cash_currency).isSome = true) :
    (knownTag r.trans_type = false →
      errIsInvalidTransaction (RawTransaction.to_transaction r) = true) ∧
    ((r.trans_type = "a" ∨ r.trans_type = "d" ∨ r.trans_type = "i") →
      r.asset = none →
      errIsInvalidTransaction (RawTransaction.to_transaction r) = true) ∧
    (r.trans_type = "a" → r.position = none →
      errIsInvalidTransaction (RawTransaction.to_transaction r) = true) ∧
    (knownTag r.trans_type = true → r.requiredPresent = true →
      resIsOk (RawTransaction.to_transaction r) = true) := by
  obtain ⟨c, hc⟩ := Option.isSome_iff_exists.mp hcur
  refine ⟨?_, ?_, ?_, ?_⟩
  · intro hk
    simp only [knownTag, Bool.or_eq_false_iff, decide_eq_false_iff_not] at hk
    obtain ⟨⟨⟨⟨⟨h1, h2⟩, h3⟩, h4⟩, h5⟩, h6⟩ := hk
    simp [RawTransaction.to_transaction, hc, h1, h2, h3, h4, h5, h6,
      errIsInvalidTransaction, DataError.isInvalidTransaction]
  · rintro (htag | htag | htag) hasset <;>
      simp [RawTransaction.to_transaction, hc, htag, hasset,
        errIsInvalidTransaction, DataError.isInvalidTransaction]
  · intro htag hpos
    rcases ha : r.asset with _ | a <;>
      simp [RawTransaction.to_transaction, hc, htag, hpos, ha,
        errIsInvalidTransaction, DataError.isInvalidTransaction]
  · intro hk hreq
    simp only [knownTag, Bool.or_eq_true, decide_eq_true_eq] at hk
    unfold RawTransaction.requiredPresent at hreq
    rcases hk with ((((h | h) | h) | h) | h) | h
    · simp [RawTransaction.to_transaction, hc, h, resIsOk]
    · rw [h, if_pos rfl, Bool.and_eq_true] at hreq
      obtain ⟨h1, h2⟩ := hreq
      obtain ⟨a, ha⟩ := Option.isSome_iff_exists.mp h1
      obtain ⟨p, hp⟩ := Option.isSome_iff_exists.mp h2
      simp [RawTransaction.to_transaction, hc, h, ha, hp, resIsOk]
    · rw [h, if_neg (by decide), if_pos rfl] at hreq
      obtain ⟨a, ha⟩ := Option.isSome_iff_exists.mp hreq
      simp [RawTransaction.to_transaction, hc, h, ha, resIsOk]
    · rw [h, if_neg (by decide), if_neg (by decide), if_pos rfl] at hreq
      obtain ⟨a, ha⟩ := Option.isSome_iff_exists.mp hreq
      simp [RawTransaction.to_transaction, hc, h, ha, resIsOk]
    · simp [RawTransaction.to_transaction, hc, h, resIsOk]
    · simp [RawTransaction.to_transaction, hc, h, resIsOk]

/-- A row with an unknown discriminant but a parseable currency code. -/
def rawUnknownTagGoodCurrency : RawTransaction :=
  { id := none, trans_type := "x", asset := none, cash_amount := 1,
    cash_currency := "USD", cash_date := 0, related_trans := none,
    position := none, note := none }

/-- C3 witness: at a concrete row with parseable currency and unknown tag,
decoding fails with InvalidTransaction. -/
theorem to_transaction_error_classes_witness :
    (Currency.from_str rawUnknownTagGoodCurrency.cash_currency).isSome = true ∧
    errIsInvalidTransaction
      (RawTransaction.to_transaction rawUnknownTagGoodCurrency) = true :=
  ⟨by decide,
    (to_transaction_error_classes rawUnknownTagGoodCurrency (by decide)).1
      (by decide)⟩

/-- A well-formed Cash row except for its unparseable currency code. -/
def rawCashBadCurrency : RawTransaction :=
  { id := some 1, trans_type := "c", asset := none, cash_amount := 5,
    cash_currency := "", cash_date := 3, related_trans := none,
    position := none, note := none }

/-- C9 counterexample: decoding a row whose cash_currency does not parse
fails, but with an InsertFailed-class error, not with InvalidCurrency. -/
theorem to_transaction_bad_currency_ctrex :
    errIsInvalidCurrency (RawTransaction.to_transaction rawCashBadCurrency)
      = false ∧
    errIsInsertFailed (RawTransaction.to_transaction rawCashBadCurrency)
      = true := by
  refine ⟨by decide, by decide⟩

/-- C9 (amended): decoding a raw transaction row whose cash_currency string
cannot be parsed as a currency fails with an InsertFailed-class error (the
code maps the parse failure to InsertFailed, not to InvalidCurrency). -/
theorem to_transaction_bad_currency (r : RawTransaction)
    (h : Currency.from_str r.cash_currency = none) :
    errIsInsertFailed (RawTransaction.to_transaction r) = true ∧
    errIsInvalidCurrency (RawTransaction.to_transaction r) = false := by
  unfold RawTransaction.to_transaction
  rw [h]
  exact ⟨rfl, rfl⟩

/-- A Tax row with a four-letter, hence unparseable, currency code. -/
def rawTaxBadCurrency : RawTransaction :=
  { id := none, trans_type := "t", asset := none, cash_amount := 2,
    cash_currency := "ABCD", cash_date := 9, related_trans := some 4,
    position := none, note := some "tax" }

/-- C9 witness: at a concrete row with unparseable currency, decoding
fails with InsertFailed and not with InvalidCurrency. -/
theorem to_transaction_bad_currency_witness :
    Currency.from_str rawTaxBadCurrency.cash_currency = none ∧
    (errIsInsertFailed (RawTransaction.to_transaction rawTaxBadCurrency)
        = true ∧
      errIsInvalidCurrency (RawTransaction.to_transaction rawTaxBadCurrency)
        = false) :=
  ⟨by decide, to_transaction_bad_currency rawTaxBadCurrency (by decide)⟩

/-- C4: get_asset_id resolves by ISIN alone when the asset carries an isin
(the wkn of the argument is irrelevant then), else by WKN alone when it
carries a wkn, else by name; None is returned when the selected criterion
matches no stored asset. -/
theorem get_asset_id_priority (db : SqliteDB) (a : Asset) :
    (∀ i, a.isin = some i →
      get_asset_id db a =
        (db.assets.find? fun row => row.isin = some i).map AssetRow.id) ∧
    (∀ i w, a.isin = some i →
      get_asset_id db { a with wkn := w } = get_asset_id db a) ∧
    (a.isin = none → ∀ w, a.wkn = some w →
      get_asset_id db a =
        (db.assets.find? fun row => row.wkn = some w).map AssetRow.id) ∧
    (a.isin = none → a.wkn = none →
      get_asset_id db a =
        (db.assets.find? fun row => row.name = a.name).map AssetRow.id) ∧
    (∀ i, a.isin = some i → (∀ row ∈ db.assets, row.isin ≠ some i) →
      get_asset_id db a = none) := by
  refine ⟨?_, ?_, ?_, ?_, ?_⟩
  · intro i hi
    simp [get_asset_id, hi]
  · intro i w hi
    simp [get_asset_id, hi]
  · intro hi w hw
    simp [get_asset_id, hi, hw]
  · intro hi hw
    simp [get_asset_id, hi, hw]
  · intro i hi hnone
    have : db.assets.find? (fun row => row.isin = some i) = none := by
      rw [List.find?_eq_none]
      intro x hx
      simpa using hnone x hx
    simp [get_asset_id, hi, this]

/-- A store with one asset found by isin and another sharing the wkn of
the queried asset. -/
def assetDemoDB : SqliteDB :=
  { assets := [
      { id := 1, name := "X", wkn := none, isin := some "ISIN1", note := none },
      { id := 2, name := "Y", wkn := some "WKN1", isin := none, note := none }],
    tickers := [], quotes := [], rounding := [] }

/-- A queried asset carrying both an isin and a wkn. -/
def assetDemoQuery : Asset :=
  { id := none, name := "Z", wkn := some "WKN1", isin := some "ISIN1",
    note := none }

/-- C4 witness: the asset carrying both identifiers is matched by ISIN
(id 1) although a different stored asset (id 2) shares its WKN. -/
theorem get_asset_id_priority_witness :
    assetDemoQuery.isin = some "ISIN1" ∧
    (∃ r ∈ assetDemoDB.assets,
      r.wkn = assetDemoQuery.wkn ∧ r.isin ≠ assetDemoQuery.isin) ∧
    get_asset_id assetDemoDB assetDemoQuery = some 1 := by
  refine ⟨rfl, ⟨by decide, ?_⟩⟩
  have h := (get_asset_id_priority assetDemoDB assetDemoQuery).1 "ISIN1" rfl
  rw [h]
  decide

/-- Number of stored ticker rows carrying the given name. -/
def countTickerName (db : SqliteDB) (name : String) : Nat :=
  (db.tickers.filter fun row => row.name = name).length

/-- C5: insert_if_new_ticker returns the existing id without touching the
store when a ticker of the name exists, inserts exactly one row otherwise,
and a second call with a ticker of the same name returns the same id and
leaves the store unchanged, so exactly one row of that name remains. -/
theorem insert_if_new_ticker_idempotent (db : SqliteDB) (t1 t2 : Ticker)
    (hname : t2.name = t1.name) :
    ∃ id1 db1,
      insert_if_new_ticker db t1 = .ok (id1, db1) ∧
      insert_if_new_ticker db1 t2 = .ok (id1, db1) ∧
      countTickerName db1 t1.name = max (countTickerName db t1.name) 1 ∧
      (∀ i, get_ticker_id db t1.name = some i → id1 = i ∧ db1 = db) ∧
      (get_ticker_id db t1.name = none →
        db1.tickers.length = db.tickers.length + 1) := by
  rcases h : db.tickers.find? (fun row => row.name = t1.name) with _ | r0
  · -- no ticker of that name: the first call inserts
    have hnone : get_ticker_id db t1.name = none := by
      simp [get_ticker_id, h]
    have hall : ∀ r ∈ db.tickers, ¬ (r.name = t1.name) := by
      intro r hr
      have := List.find?_eq_none.mp h r hr
      simpa using this
    set row : TickerRow :=
      { id := db.nextTickerId, name := t1.name, asset := t1.asset,
        source := t1.source, priority := t1.priority,
        currency := t1.currency, factor := t1.factor } with hrow
    have hfilter : db.tickers.filter (fun r => decide (r.name = t1.name)) = [] := by
      rw [List.filter_eq_nil_iff]
      intro x hx
      simp [hall x hx]
    have hc0 : countTickerName db t1.name = 0 := by
      unfold countTickerName
      rw [hfilter]
      rfl
    have hfind2 :
        (db.tickers ++ [row]).find?
          (fun r => decide (r.name = t1.name ∧ r.source = t1.source)) =
          some row := by
      rw [List.find?_append]
      have h1 : db.tickers.find?
          (fun r => decide (r.name = t1.name ∧ r.source = t1.source)) = none := by
        rw [List.find?_eq_none]
        intro x hx
        simp [hall x hx]
      rw [h1]
      simp [hrow]
    have hins : insert_ticker db t1 =
        .ok (row.id, { db with tickers := db.tickers ++ [row] }) := by
      unfold insert_ticker
      simp only [← hrow]
      rw [hfind2]
    have hfst : insert_if_new_ticker db t1 =
        .ok (row.id, { db with tickers := db.tickers ++ [row] }) := by
      unfold insert_if_new_ticker
      rw [hnone, hins]
    refine ⟨row.id, _, hfst, ?_, ?_, ?_, ?_⟩
    · have hfind3 : (db.tickers ++ [row]).find?
          (fun r => decide (r.name = t2.name)) = some row := by
        rw [List.find?_append]
        have h1 : db.tickers.find? (fun r => decide (r.name = t2.name)) = none := by
          rw [List.find?_eq_none]
          intro x hx
          simp [hname, hall x hx]
        rw [h1]
        simp [hrow, hname]
      unfold insert_if_new_ticker get_ticker_id
      simp only [hfind3]
      rfl
    · have hr1 : countTickerName { db with tickers := db.tickers ++ [row] }
          t1.name = 1 := by
        unfold countTickerName
        simp only []
        rw [List.filter_append, hfilter]
        simp [hrow]
      rw [hr1, hc0]
      decide
    · intro i hi
      rw [hnone] at hi
      exact absurd hi (by simp)
    · intro _
      simp
  · -- a ticker named t1.name exists
    have hsome : get_ticker_id db t1.name = some r0.id := by
      simp [get_ticker_id, h]
    have hfst : insert_if_new_ticker db t1 = .ok (r0.id, db) := by
      unfold insert_if_new_ticker
      rw [hsome]
    have hcpos : 0 < countTickerName db t1.name := by
      unfold countTickerName
      have hmem : r0 ∈ db.tickers := List.mem_of_find?_eq_some h
      have hp := List.find?_some h
      exact List.length_pos_of_mem (List.mem_filter.mpr ⟨hmem, hp⟩)
    refine ⟨r0.id, db, hfst, ?_, ?_, ?_, ?_⟩
    · unfold insert_if_new_ticker get_ticker_id
      have hfind3 : db.tickers.find? (fun r => decide (r.name = t2.name)) = some r0 := by
        rw [hname]; exact h
      rw [hfind3]
      rfl
    · omega
    · intro i hi
      rw [hsome] at hi
      injection hi with h2
      exact ⟨h2, rfl⟩
    · intro hcontra
      simp [hsome] at hcontra

/-- A fresh ticker to insert twice. -/
def tickerDemo : Ticker :=
  { id := none, name := "T1", asset := 1, source := "s", priority := 1,
    currency := "USD", factor := 1 }

/-- The empty store. -/
def emptyDemoDB : SqliteDB :=
  { assets := [], tickers := [], quotes := [], rounding := [] }

/-- C5 witness: inserting the same ticker twice into the empty store. -/
theorem insert_if_new_ticker_idempotent_witness :
    tickerDemo.name = tickerDemo.name ∧
    (∃ id1 db1,
      insert_if_new_ticker emptyDemoDB tickerDemo = .ok (id1, db1) ∧
      insert_if_new_ticker db1 tickerDemo = .ok (id1, db1) ∧
      countTickerName db1 tickerDemo.name =
        max (countTickerName emptyDemoDB tickerDemo.name) 1 ∧
      (∀ i, get_ticker_id emptyDemoDB tickerDemo.name = some i →
        id1 = i ∧ db1 = emptyDemoDB) ∧
      (get_ticker_id emptyDemoDB tickerDemo.name = none →
        db1.tickers.length = emptyDemoDB.tickers.length + 1)) :=
  ⟨rfl, insert_if_new_ticker_idempotent emptyDemoDB tickerDemo tickerDemo rfl⟩

/-- C6: get_rounding_digits is total by type (it returns an Int, not a
result) and returns the default 2 for a currency with no configured entry;
after a successful set_rounding_digits(cur, 4), get_rounding_digits(cur)
returns 4. -/
theorem get_rounding_digits_total_default (db : SqliteDB) (cur : Currency) :
    (db.rounding.find? (fun row => row.1 = cur) = none →
      get_rounding_digits db cur = 2) ∧
    (∀ db2, set_rounding_digits db cur 4 = .ok db2 →
      get_rounding_digits db2 cur = 4) := by
  constructor
  · intro h
    unfold get_rounding_digits
    rw [h]
  · intro db2 hset
    unfold set_rounding_digits at hset
    by_cases hrej : roundingInsertRejected db cur
    · rw [if_pos hrej] at hset
      exact absurd hset (by simp)
    · rw [if_neg hrej] at hset
      injection hset with h2
      subst h2
      unfold get_rounding_digits
      unfold roundingInsertRejected at hrej
      have hnone : db.rounding.find? (fun row => row.1 = cur) = none := by
        rcases hf : db.rounding.find? (fun row => row.1 = cur) with _ | x
        · exact hf
        · exact absurd (by rw [hf]; rfl) hrej
      simp only []
      rw [List.find?_append, hnone]
      simp

/-- C6 witness: on the empty store, the never-configured currency reads 2,
and reads 4 after a successful set to 4. -/
theorem get_rounding_digits_total_default_witness :
    emptyDemoDB.rounding.find? (fun row => row.1 = "SEK") = none ∧
    get_rounding_digits emptyDemoDB "SEK" = 2 ∧
    (∀ db2, set_rounding_digits emptyDemoDB "SEK" 4 = .ok db2 →
      get_rounding_digits db2 "SEK" = 4) :=
  ⟨by decide,
    (get_rounding_digits_total_default emptyDemoDB "SEK").1 (by decide),
    (get_rounding_digits_total_default emptyDemoDB "SEK").2⟩

/-- The quote-resolution scenario of the spec: asset ACME with ticker A
(priority 1, one quote at 2023-01-01 price 10) and ticker B (priority 5,
quotes at 2022-12-01 price 9 and 2023-01-02 price 11). -/
def acmeDB : SqliteDB :=
  { assets := [{ id := 1, name := "ACME", wkn := none, isin := none, note := none }],
    tickers := [
      { id := 1, name := "A", asset := 1, source := "s", priority := 1,
        currency := "USD", factor := 1 },
      { id := 2, name := "B", asset := 1, source := "s", priority := 5,
        currency := "USD", factor := 1 }],
    quotes := [
      { id := 1, ticker := 1, price := 10, time := 20230101, volume := none },
      { id := 2, ticker := 2, price := 9, time := 20221201, volume := none },
      { id := 3, ticker := 2, price := 11, time := 20230102, volume := none }],
    rounding := [] }

/-- C1: the query orders by ascending time (ORDER BY q.time, t.priority
DESC) and takes the first row, so at cutoff 2023-01-03 both functions
return the EARLIEST qualifying quote, price 9 of 2022-12-01, not the
latest quote (price 11 of 2023-01-02) that the claim and the operation
name describe. -/
theorem get_last_quote_before_returns_earliest :
    get_last_quote_before acmeDB "ACME" 20230103 =
      .ok ({ id := some 2, ticker := 2, price := 9, time := 20221201,
             volume := none }, "USD") ∧
    get_last_quote_before_by_id acmeDB 1 20230103 =
      .ok ({ id := some 2, ticker := 2, price := 9, time := 20221201,
             volume := none }, "USD") ∧
    get_last_quote_before acmeDB "ACME" 20230103 ≠
      .ok ({ id := some 3, ticker := 2, price := 11, time := 20230102,
             volume := none }, "USD") := by
  refine ⟨by decide, by decide, by decide⟩

/-- A store holding one quote row with id 1 and ticker 7. -/
def quoteFixDB : SqliteDB :=
  { assets := [], tickers := [],
    quotes := [{ id := 1, ticker := 7, price := 0, time := 0, volume := none }],
    rounding := [] }

/-- The store after update_quote with the quote below: the price column
received the ticker id 7, not the price 42 of the quote. -/
def quoteFixDB1 : SqliteDB :=
  { assets := [], tickers := [],
    quotes := [{ id := 1, ticker := 7, price := 7, time := 5, volume := some 3 }],
    rounding := [] }

/-- The quote passed to update_quote: assigned id 1, price 42. -/
def updatedQuote : Quote :=
  { id := some 1, ticker := 7, price := 42, time := 5, volume := some 3 }

/-- C10: the UPDATE statement of update_quote binds parameter 2 (the
ticker id) to the price column (SET price=?2 instead of price=?3), so
after updating with a quote of price 42 and ticker 7 the stored price read
back by get_all_quotes_for_ticker is 7, not 42; ticker, time and volume
are stored as the claim says. -/
theorem update_quote_price_bug :
    updatedQuote.price = 42 ∧
    update_quote quoteFixDB updatedQuote = .ok quoteFixDB1 ∧
    get_all_quotes_for_ticker quoteFixDB1 7 =
      [{ id := some 1, ticker := 7, price := 7, time := 5, volume := some 3 }] ∧
    (7 : Int) ≠ 42 := by
  refine ⟨rfl, by decide, by decide, by decide⟩

/-- The running best of the ordering fold is one of the candidates. -/
theorem foldlBest_mem (l : List (QuoteRow × TickerRow))
    (a : QuoteRow × TickerRow) :
    l.foldl (fun best y => if quoteOrderBeats y best then y else best) a ∈
      a :: l := by
  induction l generalizing a with
  | nil => simp
  | cons y ys ih =>
    simp only [List.foldl_cons]
    by_cases hb : quoteOrderBeats y a
    · rw [if_pos hb]
      have := ih y
      simp at this ⊢
      tauto
    · rw [if_neg hb]
      have := ih a
      simp at this ⊢
      tauto

/-- The selected first row belongs to the result set. -/
theorem selectFirstRow_mem (l : List (QuoteRow × TickerRow))
    (x : QuoteRow × TickerRow) (h : selectFirstRow l = some x) : x ∈ l := by
  cases l with
  | nil => simp [selectFirstRow] at h
  | cons a ys =>
    unfold selectFirstRow at h
    injection h with h
    rw [← h]
    exact foldlBest_mem ys a

/-- When every candidate shares one time and a single candidate has
strictly highest priority, the ordering fold ends at that candidate. -/
theorem foldlBest_eq_of_unique (xs : List (QuoteRow × TickerRow))
    (acc x0 : QuoteRow × TickerRow)
    (hacc : acc = x0 ∨ (acc.1.time = x0.1.time ∧ acc.2.priority < x0.2.priority))
    (hin : x0 ∈ xs ∨ acc = x0)
    (ht : ∀ y ∈ xs, y.1.time = x0.1.time)
    (hp : ∀ y ∈ xs, y ≠ x0 → y.2.priority < x0.2.priority) :
    xs.foldl (fun best y => if quoteOrderBeats y best then y else best) acc
      = x0 := by
  induction xs generalizing acc with
  | nil =>
    rcases hin with hin | hin
    · simp at hin
    · simpa using hin
  | cons y ys ih =>
    simp only [List.foldl_cons]
    have hyt : y.1.time = x0.1.time := ht y (by simp)
    have htail_t : ∀ z ∈ ys, z.1.time = x0.1.time :=
      fun z hz => ht z (by simp [hz])
    have htail_p : ∀ z ∈ ys, z ≠ x0 → z.2.priority < x0.2.priority :=
      fun z hz hne => hp z (by simp [hz]) hne
    by_cases hy : y = x0
    · have step_eq : (if quoteOrderBeats y acc then y else acc) = x0 := by
        rcases hacc with hacc | hacc
        · by_cases hb : quoteOrderBeats y acc
          · rw [if_pos hb]; exact hy
          · rw [if_neg hb]; exact hacc
        · have hb : quoteOrderBeats y acc = true := by
            simp only [quoteOrderBeats, decide_eq_true_eq]
            right
            rw [hy]
            exact ⟨hacc.1.symm, hacc.2⟩
          rw [if_pos hb]; exact hy
      rw [step_eq]
      exact ih x0 (Or.inl rfl) (Or.inr rfl) htail_t htail_p
    · have hyp : y.2.priority < x0.2.priority := hp y (by simp) hy
      have hin2 : x0 ∈ ys ∨ (if quoteOrderBeats y acc then y else acc) = x0 := by
        rcases hin with hin | hin
        · rcases List.mem_cons.mp hin with h1 | h1
          · exact absurd h1.symm hy
          · exact Or.inl h1
        · have hnb : quoteOrderBeats y acc = false := by
            rw [hin]
            simp only [quoteOrderBeats, decide_eq_false_iff_not]
            push_neg
            constructor
            · omega
            · intro _
              omega
          rw [if_neg (by simp [hnb]), hin]
          exact Or.inr rfl
      have hacc2 : (if quoteOrderBeats y acc then y else acc) = x0 ∨
          ((if quoteOrderBeats y acc then y else acc).1.time = x0.1.time ∧
           (if quoteOrderBeats y acc then y else acc).2.priority <
             x0.2.priority) := by
        by_cases hb : quoteOrderBeats y acc
        · rw [if_pos hb]
          exact Or.inr ⟨hyt, hyp⟩
        · rw [if_neg hb]
          exact hacc
      exact ih _ hacc2 hin2 htail_t htail_p

/-- When every row of the result set shares one time and a single row has
strictly highest ticker priority, ORDER BY q.time, t.priority DESC LIMIT 1
yields that row. -/
theorem selectFirstRow_of_unique_best (l : List (QuoteRow × TickerRow))
    (x0 : QuoteRow × TickerRow) (hx : x0 ∈ l)
    (ht : ∀ y ∈ l, y.1.time = x0.1.time)
    (hp : ∀ y ∈ l, y ≠ x0 → y.2.priority < x0.2.priority) :
    selectFirstRow l = some x0 := by
  cases l with
  | nil => simp at hx
  | cons a ys =>
    rw [selectFirstRow]
    refine congrArg some ?_
    have hacc : a = x0 ∨ (a.1.time = x0.1.time ∧ a.2.priority < x0.2.priority) := by
      by_cases ha : a = x0
      · exact Or.inl ha
      · exact Or.inr ⟨ht a (by simp), hp a (by simp) ha⟩
    have hin : x0 ∈ ys ∨ a = x0 := by
      rcases List.mem_cons.mp hx with h1 | h1
      · exact Or.inr h1.symm
      · exact Or.inl h1
    exact foldlBest_eq_of_unique ys a x0 hacc hin
      (fun z hz => ht z (by simp [hz]))
      (fun z hz hne => hp z (by simp [hz]) hne)

/-- C7: when every qualifying quote of the asset (by name or by id) lies
at one identical instant and one candidate ticker has strictly highest
priority, get_last_quote_before and get_last_quote_before_by_id return
that ticker quote together with the ticker currency. -/
theorem last_quote_tie_break (db : SqliteDB) (asset_name : String)
    (asset_id cutoff : Nat) :
    (∀ q0 t0, (q0, t0) ∈ quoteJoinByName db asset_name cutoff →
      (∀ y ∈ quoteJoinByName db asset_name cutoff, y.1.time = q0.time) →
      (∀ y ∈ quoteJoinByName db asset_name cutoff, y ≠ (q0, t0) →
        y.2.priority < t0.priority) →
      Currency.from_str t0.currency = some t0.currency →
      get_last_quote_before db asset_name cutoff =
        .ok ({ id := some q0.id, ticker := q0.ticker, price := q0.price,
               time := q0.time, volume := q0.volume }, t0.currency)) ∧
    (∀ q0 t0, (q0, t0) ∈ quoteJoinById db asset_id cutoff →
      (∀ y ∈ quoteJoinById db asset_id cutoff, y.1.time = q0.time) →
      (∀ y ∈ quoteJoinById db asset_id cutoff, y ≠ (q0, t0) →
        y.2.priority < t0.priority) →
      Currency.from_str t0.currency = some t0.currency →
      get_last_quote_before_by_id db asset_id cutoff =
        .ok ({ id := some q0.id, ticker := q0.ticker, price := q0.price,
               time := q0.time, volume := q0.volume }, t0.currency)) := by
  constructor
  · intro q0 t0 hx ht hp hcur
    have hsel := selectFirstRow_of_unique_best _ (q0, t0) hx ht hp
    unfold get_last_quote_before lastQuoteFromRow
    rw [hsel]
    simp [hcur]
  · intro q0 t0 hx ht hp hcur
    have hsel := selectFirstRow_of_unique_best _ (q0, t0) hx ht hp
    unfold get_last_quote_before_by_id lastQuoteFromRow
    rw [hsel]
    simp [hcur]

/-- The tie-break scenario of the spec: tickers of priorities 1 and 5 each
with one quote at the identical instant, prices 100 and 200. -/
def tieDB : SqliteDB :=
  { assets := [{ id := 1, name := "ACME", wkn := none, isin := none,
                 note := none }],
    tickers := [
      { id := 1, name := "A", asset := 1, source := "s", priority := 1,
        currency := "USD", factor := 1 },
      { id := 2, name := "B", asset := 1, source := "s", priority := 5,
        currency := "USD", factor := 1 }],
    quotes := [
      { id := 1, ticker := 1, price := 100, time := 20230201, volume := none },
      { id := 2, ticker := 2, price := 200, time := 20230201, volume := none }],
    rounding := [] }

/-- C7 witness: in the tie scenario, both queries at the shared instant
return price 200, the quote of the priority-5 ticker. -/
theorem last_quote_tie_break_witness :
    (({ id := 2, ticker := 2, price := 200, time := 20230201,
        volume := none } : QuoteRow),
     ({ id := 2, name := "B", asset := 1, source := "s", priority := 5,
        currency := "USD", factor := 1 } : TickerRow)) ∈
      quoteJoinByName tieDB "ACME" 20230201 ∧
    get_last_quote_before tieDB "ACME" 20230201 =
      .ok ({ id := some 2, ticker := 2, price := 200, time := 20230201,
             volume := none }, "USD") ∧
    get_last_quote_before_by_id tieDB 1 20230201 =
      .ok ({ id := some 2, ticker := 2, price := 200, time := 20230201,
             volume := none }, "USD") :=
  ⟨by decide,
    (last_quote_tie_break tieDB "ACME" 1 20230201).1
      { id := 2, ticker := 2, price := 200, time := 20230201, volume := none }
      { id := 2, name := "B", asset := 1, source := "s", priority := 5,
        currency := "USD", factor := 1 }
      (by decide) (by decide) (by decide) (by decide),
    (last_quote_tie_break tieDB "ACME" 1 20230201).2
      { id := 2, ticker := 2, price := 200, time := 20230201, volume := none }
      { id := 2, name := "B", asset := 1, source := "s", priority := 5,
        currency := "USD", factor := 1 }
      (by decide) (by decide) (by decide) (by decide)⟩

/-- No ticker of the asset named asset_name has a quote at or before the
cutoff (stated over the tables, independently of the query embedding). -/
def noQuoteAtOrBeforeByName (db : SqliteDB) (asset_name : String)
    (cutoff : Nat) : Prop :=
  ∀ q ∈ db.quotes, ∀ t ∈ db.tickers, ∀ a ∈ db.assets,
    ¬(asset_name = a.name ∧ t.asset = a.id ∧ q.ticker = t.id ∧
      q.time ≤ cutoff)

/-- No ticker of the asset with id asset_id has a quote at or before the
cutoff. -/
def noQuoteAtOrBeforeById (db : SqliteDB) (asset_id : Nat)
    (cutoff : Nat) : Prop :=
  ∀ q ∈ db.quotes, ∀ t ∈ db.tickers,
    ¬(t.asset = asset_id ∧ q.ticker = t.id ∧ q.time ≤ cutoff)

/-- The by-name result set is empty exactly when no ticker of the asset
has a qualifying quote. -/
theorem quoteJoinByName_eq_nil_iff (db : SqliteDB) (asset_name : String)
    (cutoff : Nat) :
    quoteJoinByName db asset_name cutoff = [] ↔
      noQuoteAtOrBeforeByName db asset_name cutoff := by
  simp [quoteJoinByName, noQuoteAtOrBeforeByName, List.flatten_eq_nil_iff,
    List.filterMap_eq_nil_iff, List.mem_map]

/-- The by-id result set is empty exactly when no ticker of the asset has
a qualifying quote. -/
theorem quoteJoinById_eq_nil_iff (db : SqliteDB) (asset_id cutoff : Nat) :
    quoteJoinById db asset_id cutoff = [] ↔
      noQuoteAtOrBeforeById db asset_id cutoff := by
  simp [quoteJoinById, noQuoteAtOrBeforeById, List.flatten_eq_nil_iff,
    List.filterMap_eq_nil_iff, List.mem_map]

/-- Each row of the by-name result set carries a stored ticker. -/
theorem mem_quoteJoinByName_ticker (db : SqliteDB) (asset_name : String)
    (cutoff : Nat) (x : QuoteRow × TickerRow)
    (h : x ∈ quoteJoinByName db asset_name cutoff) : x.2 ∈ db.tickers := by
  simp [quoteJoinByName, List.mem_flatten, List.mem_map,
    List.mem_filterMap] at h
  obtain ⟨q, hq, t, ht, a, ha, hcond, hx⟩ := h
  rw [← hx]
  exact ht

/-- Each row of the by-id result set carries a stored ticker. -/
theorem mem_quoteJoinById_ticker (db : SqliteDB) (asset_id cutoff : Nat)
    (x : QuoteRow × TickerRow)
    (h : x ∈ quoteJoinById db asset_id cutoff) : x.2 ∈ db.tickers := by
  simp [quoteJoinById, List.mem_flatten, List.mem_map,
    List.mem_filterMap] at h
  obtain ⟨q, hq, t, ht, hcond, hx⟩ := h
  rw [← hx]
  exact ht

/-- C8: for stores whose ticker currency strings parse (every reachable
store, since insert_ticker writes Currency::to_string), both
get_last_quote_before and get_last_quote_before_by_id fail with a
NotFound-class error exactly when no ticker of the queried asset has a
quote at or before the cutoff, and succeed otherwise. -/
theorem last_quote_notfound_iff (db : SqliteDB) (asset_name : String)
    (asset_id cutoff : Nat)
    (hwf : ∀ t ∈ db.tickers, (Currency.from_str t.currency).isSome = true) :
    (noQuoteAtOrBeforeByName db asset_name cutoff →
      errIsNotFound (get_last_quote_before db asset_name cutoff) = true) ∧
    (¬noQuoteAtOrBeforeByName db asset_name cutoff →
      resIsOk (get_last_quote_before db asset_name cutoff) = true) ∧
    (noQuoteAtOrBeforeById db asset_id cutoff →
      errIsNotFound (get_last_quote_before_by_id db asset_id cutoff) = true) ∧
    (¬noQuoteAtOrBeforeById db asset_id cutoff →
      resIsOk (get_last_quote_before_by_id db asset_id cutoff) = true) := by
  refine ⟨?_, ?_, ?_, ?_⟩
  · intro h
    have hnil := (quoteJoinByName_eq_nil_iff db asset_name cutoff).mpr h
    unfold get_last_quote_before lastQuoteFromRow selectFirstRow
    rw [hnil]
    rfl
  · intro h
    have hnil : quoteJoinByName db asset_name cutoff ≠ [] := by
      intro hc
      exact h ((quoteJoinByName_eq_nil_iff db asset_name cutoff).mp hc)
    rcases hsel : selectFirstRow (quoteJoinByName db asset_name cutoff)
        with _ | x
    · rcases hl : quoteJoinByName db asset_name cutoff with _ | ⟨a, ys⟩
      · exact absurd hl hnil
      · rw [hl] at hsel
        simp [selectFirstRow] at hsel
    · have hmem := selectFirstRow_mem _ x hsel
      have htick := mem_quoteJoinByName_ticker db asset_name cutoff x hmem
      obtain ⟨c, hc⟩ := Option.isSome_iff_exists.mp (hwf x.2 htick)
      unfold get_last_quote_before lastQuoteFromRow
      rw [hsel]
      obtain ⟨q, t⟩ := x
      simp only at hc
      simp [hc, resIsOk]
  · intro h
    have hnil := (quoteJoinById_eq_nil_iff db asset_id cutoff).mpr h
    unfold get_last_quote_before_by_id lastQuoteFromRow selectFirstRow
    rw [hnil]
    rfl
  · intro h
    have hnil : quoteJoinById db asset_id cutoff ≠ [] := by
      intro hc
      exact h ((quoteJoinById_eq_nil_iff db asset_id cutoff).mp hc)
    rcases hsel : selectFirstRow (quoteJoinById db asset_id cutoff)
        with _ | x
    · rcases hl : quoteJoinById db asset_id cutoff with _ | ⟨a, ys⟩
      · exact absurd hl hnil
      · rw [hl] at hsel
        simp [selectFirstRow] at hsel
    · have hmem := selectFirstRow_mem _ x hsel
      have htick := mem_quoteJoinById_ticker db asset_id cutoff x hmem
      obtain ⟨c, hc⟩ := Option.isSome_iff_exists.mp (hwf x.2 htick)
      unfold get_last_quote_before_by_id lastQuoteFromRow
      rw [hsel]
      obtain ⟨q, t⟩ := x
      simp only at hc
      simp [hc, resIsOk]

/-- C8 witness: on the tie scenario store, the query fails with NotFound
at a cutoff before all quotes and succeeds at one after them; both for the
by-name and the by-id query. -/
theorem last_quote_notfound_iff_witness :
    (∀ t ∈ tieDB.tickers, (Currency.from_str t.currency).isSome = true) ∧
    noQuoteAtOrBeforeByName tieDB "ACME" 20230101 ∧
    errIsNotFound (get_last_quote_before tieDB "ACME" 20230101) = true ∧
    ¬noQuoteAtOrBeforeById tieDB 1 20230301 ∧
    resIsOk (get_last_quote_before_by_id tieDB 1 20230301) = true :=
  ⟨by decide, by unfold noQuoteAtOrBeforeByName; decide,
    (last_quote_notfound_iff tieDB "ACME" 1 20230101 (by decide)).1
      (by unfold noQuoteAtOrBeforeByName; decide),
    by unfold noQuoteAtOrBeforeById; decide,
    (last_quote_notfound_iff tieDB "ACME" 1 20230301 (by decide)).2.2.2
      (by unfold noQuoteAtOrBeforeById; decide)⟩
